import Mathlib

/-!
Shallow embedding of `src/backend/guardrails-service/src/main.rs` (the
guardrails evaluation service), restricted to the parts the verified
properties are about: the decision engine in `evaluate_guardrails`
(built-in PII / content-safety / prompt-injection checks, the loop over
enabled policies with custom keyword rules and audit attribution), and
the audit-record construction and insertion.

Modelling conventions:
- Rust `String` is modelled as `List Char` (`Str`); `String::to_lowercase`
  as a character-wise `Char.toLower` map; `String::contains` as substring
  containment (`containsStr`).
- `serde_json::Value` is modelled by the inductive `Json`, with serde's
  `value["key"]` indexing (returning `null` when absent), `as_array` and
  `as_str`.
- `Uuid` is modelled as `Nat`.  `Uuid::new_v4()` is a random generator;
  its output is a parameter (`fresh`) to the audit-record constructor.
- The `decision` variable only ever holds the strings "ALLOWED", "WARN",
  "DENIED", so it is modelled by the inductive `Decision`; `decisionStr`
  recovers the persisted string.
- The source file around lines 104-111 has stray closing braces before the
  `else if` branches, and declares `audit_policy_id` (line 130) after the
  loop that assigns it (lines 97-119); the evident intended program (an
  `if/else if` chain on `policy_type` inside the loop, with
  `audit_policy_id : Option<Uuid>` mutable state initialised to `None`
  before the loop) is what is embedded here.
- `sqlx` fetch results are `Except` values: the policy fetch is an
  `Except StoreErr (List Policy)` parameter, the audit insert a function
  `AuditLog → Except AuditErr Unit`.  `.expect(..)` on a failed insert is
  a panic, modelled as `Option.none` at the handler level.
- SHA-256 (`sha256::digest` on the input bytes, hex-encoded) is
  implemented in full (FIPS 180-4) over `Nat` with explicit `% 2^32`.
-/

namespace AG

/-- Rust strings, as lists of characters. -/
abbrev Str := List Char

/-- `String::to_lowercase`, character-wise. -/
def lower (s : Str) : Str := s.map Char.toLower

/-- `needle` occurs at the start of `hay`. -/
def startsWithStr (hay needle : Str) : Bool :=
  match needle, hay with
  | [], _ => true
  | _ :: _, [] => false
  | n :: ns, h :: hs => n == h && startsWithStr hs ns

/-- Rust `hay.contains(needle)`: substring containment. -/
def containsStr (hay needle : Str) : Bool :=
  match hay with
  | [] => needle.isEmpty
  | _ :: hs => startsWithStr hay needle || containsStr hs needle

/-- ASCII single quote, used in the reason strings built with `format!`. -/
def squote : Char := Char.ofNat 39

/-- `serde_json::Value`, restricted to the shapes the service touches. -/
inductive Json where
  | null : Json
  | str (s : Str) : Json
  | num (n : Int) : Json
  | bool (b : Bool) : Json
  | arr (elems : List Json) : Json
  | obj (fields : List (Str × Json)) : Json

/-- serde's `value["key"]` indexing: the field's value, or `Null`. -/
def Json.index : Json → Str → Json
  | .obj fields, key =>
    match fields.find? (fun f => f.1 == key) with
    | some f => f.2
    | none => .null
  | _, _ => .null

/-- serde's `as_array`. -/
def Json.asArray : Json → Option (List Json)
  | .arr elems => some elems
  | _ => none

/-- serde's `as_str`. -/
def Json.asStr : Json → Option Str
  | .str s => some s
  | _ => none

/-- The `Policy` row (struct `Policy`, main.rs lines 8-18). -/
structure Policy where
  id : Nat
  customerId : Nat
  name : Str
  agentId : Option Nat
  policyType : Str
  ruleJson : Option Json
  enabled : Bool
  createdAt : Int

/-- The three values the `decision` string ever takes. -/
inductive Decision where
  | ALLOWED : Decision
  | WARN : Decision
  | DENIED : Decision
deriving DecidableEq, Repr

/-- The persisted string for a decision. -/
def decisionStr : Decision → Str
  | .ALLOWED => "ALLOWED".toList
  | .WARN => "WARN".toList
  | .DENIED => "DENIED".toList

/-- The mutable evaluation state of `evaluate_guardrails`:
`decision`, `reason`, `checks_run`, and `audit_policy_id`. -/
structure EvalState where
  decision : Decision
  reason : Str
  checksRun : List Str
  auditPolicyId : Option Nat
deriving DecidableEq, Repr

/-- Initial state (main.rs lines 47-49, plus `audit_policy_id = None`). -/
def initState : EvalState :=
  { decision := .ALLOWED
    reason := "No issues detected.".toList
    checksRun := []
    auditPolicyId := none }

/-- PII detection (main.rs lines 51-56): case-sensitive containment of
"SSN" or "credit card" in the raw input text. -/
def piiCheck (input : Str) (s : EvalState) : EvalState :=
  if containsStr input "SSN".toList || containsStr input "credit card".toList then
    { s with decision := .DENIED
             reason := "PII detected in prompt.".toList
             checksRun := s.checksRun ++ ["PII_Detection".toList] }
  else s

/-- Content safety check (main.rs lines 58-64): if not already DENIED,
deny when the lowercased input contains "violence". -/
def contentSafetyCheck (input : Str) (s : EvalState) : EvalState :=
  if s.decision ≠ .DENIED ∧ containsStr (lower input) "violence".toList then
    { s with decision := .DENIED
             reason := "Content safety violation detected (Mocked).".toList
             checksRun := s.checksRun ++ ["Content_Safety".toList] }
  else s

/-- Prompt injection check (main.rs lines 66-75): if not already DENIED
and the lowercased input contains the trigger phrase, set WARN only when
the decision is still ALLOWED, and record the check. -/
def promptInjectionCheck (input : Str) (s : EvalState) : EvalState :=
  if s.decision ≠ .DENIED ∧
      containsStr (lower input) "ignore all previous instructions".toList then
    let s1 := if s.decision = .ALLOWED then
        { s with decision := .WARN
                 reason := "Potential prompt injection detected (Mocked).".toList }
      else s
    { s1 with checksRun := s1.checksRun ++ ["Prompt_Injection".toList] }
  else s

/-- The three built-in checks in source order (main.rs lines 47-75). -/
def builtinChecks (input : Str) : EvalState :=
  promptInjectionCheck input (contentSafetyCheck input (piiCheck input initState))

/-- Inner keyword loop (main.rs lines 91-101): first keyword in declared
order whose lowercase form is contained in the lowercased input;
non-string array elements are skipped. -/
def firstMatch (input : Str) : List Json → Option Str
  | [] => none
  | kw :: rest =>
    match kw.asStr with
    | some keyword =>
      if containsStr (lower input) (lower keyword) then some keyword
      else firstMatch input rest
    | none => firstMatch input rest

/-- Custom-rule evaluation for one policy (main.rs lines 88-102): the
`rule_json` must be present and its `deny_keywords` field an array;
returns the matched keyword, if any. -/
def customMatch (input : Str) (p : Policy) : Option Str :=
  match p.ruleJson with
  | some rule =>
    match (rule.index "deny_keywords".toList).asArray with
    | some kws => firstMatch input kws
    | none => none
  | none => none

/-- The `format!`-built reason for a custom-policy deny
(main.rs line 95). -/
def customReason (name keyword : Str) : Str :=
  "Custom policy ".toList ++ [squote] ++ name ++ [squote] ++
    " triggered by keyword ".toList ++ [squote] ++ keyword ++ [squote] ++ ".".toList

/-- The `checks_run` entry for a custom policy (main.rs line 96). -/
def customCheckId (name : Str) : Str := "Custom_Policy:".toList ++ name

/-- One iteration of the policy loop body, before the terminal
`if decision == "DENIED" break` (main.rs lines 87-121): the
`if/else if` chain on `policy_type`. -/
def policyStep (input : Str) (s : EvalState) (p : Policy) : EvalState :=
  if p.policyType = "custom".toList then
    match customMatch input p with
    | some keyword =>
      { decision := .DENIED
        reason := customReason p.name keyword
        checksRun := s.checksRun ++ [customCheckId p.name]
        auditPolicyId := some p.id }
    | none => s
  else if p.policyType = "pii".toList then
    if s.decision = .DENIED ∧ containsStr s.reason "PII detected".toList ∧
        s.auditPolicyId = none then
      { s with auditPolicyId := some p.id }
    else s
  else if p.policyType = "content_safety".toList then
    if s.decision = .DENIED ∧ containsStr s.reason "Content safety".toList ∧
        s.auditPolicyId = none then
      { s with auditPolicyId := some p.id }
    else s
  else if p.policyType = "prompt_injection".toList then
    if s.decision = .WARN ∧ containsStr s.reason "prompt injection".toList ∧
        s.auditPolicyId = none then
      { s with auditPolicyId := some p.id }
    else s
  else s

/-- The policy loop (main.rs lines 86-124).  After each iteration's body
the source breaks when `decision == "DENIED"` (line 123), whether that
DENIED came from this iteration's custom match or from a built-in check
before the loop.  Returns the final state together with the list of
policies the loop actually examined. -/
def policyLoop (input : Str) (s : EvalState) : List Policy → EvalState × List Policy
  | [] => (s, [])
  | p :: rest =>
    let s1 := policyStep input s p
    if s1.decision = .DENIED then (s1, [p])
    else
      let r := policyLoop input s1 rest
      (r.1, p :: r.2)

/-- `StoreError`: a failed policy fetch (sqlx `Err`). -/
structure StoreErr where
  msg : Str

/-- The evaluation core of `evaluate_guardrails` (main.rs lines 45-125):
built-in checks, then — only when the policy fetch succeeded
(`if let Ok(policies)`, line 85) — the policy loop. -/
def evaluateGuardrails (input : Str) (store : Except StoreErr (List Policy)) :
    EvalState :=
  match store with
  | .ok policies => (policyLoop input (builtinChecks input) policies).1
  | .error _ => builtinChecks input

/-! ### SHA-256 (FIPS 180-4), as used by `sha256::digest(input.as_bytes())` -/

/-- Truncation to a 32-bit word. -/
def w32 (n : Nat) : Nat := n % 4294967296

/-- 32-bit right rotation. -/
def rotr (k x : Nat) : Nat := w32 ((x >>> k) ||| (x <<< (32 - k)))

/-- SHA-256 `Ch`. -/
def chF (x y z : Nat) : Nat := (x &&& y) ^^^ ((x ^^^ 4294967295) &&& z)

/-- SHA-256 `Maj`. -/
def majF (x y z : Nat) : Nat := (x &&& y) ^^^ (x &&& z) ^^^ (y &&& z)

/-- SHA-256 `Σ₀`. -/
def bsig0 (x : Nat) : Nat := rotr 2 x ^^^ rotr 13 x ^^^ rotr 22 x

/-- SHA-256 `Σ₁`. -/
def bsig1 (x : Nat) : Nat := rotr 6 x ^^^ rotr 11 x ^^^ rotr 25 x

/-- SHA-256 `σ₀`. -/
def ssig0 (x : Nat) : Nat := rotr 7 x ^^^ rotr 18 x ^^^ (x >>> 3)

/-- SHA-256 `σ₁`. -/
def ssig1 (x : Nat) : Nat := rotr 17 x ^^^ rotr 19 x ^^^ (x >>> 10)

/-- The 64 SHA-256 round constants, as decimal naturals. -/
def K256 : List Nat :=
  [1116352408, 1899447441, 3049323471, 3921009573,
   961987163, 1508970993, 2453635748, 2870763221,
   3624381080, 310598401, 607225278, 1426881987,
   1925078388, 2162078206, 2614888103, 3248222580,
   3835390401, 4022224774, 264347078, 604807628,
   770255983, 1249150122, 1555081692, 1996064986,
   2554220882, 2821834349, 2952996808, 3210313671,
   3336571891, 3584528711, 113926993, 338241895,
   666307205, 773529912, 1294757372, 1396182291,
   1695183700, 1986661051, 2177026350, 2456956037,
   2730485921, 2820302411, 3259730800, 3345764771,
   3516065817, 3600352804, 4094571909, 275423344,
   430227734, 506948616, 659060556, 883997877,
   958139571, 1322822218, 1537002063, 1747873779,
   1955562222, 2024104815, 2227730452, 2361852424,
   2428436474, 2756734187, 3204031479, 3329325298]

/-- The SHA-256 initial hash value, as an 8-register state. -/
structure Hash8 where
  a : Nat
  b : Nat
  c : Nat
  d : Nat
  e : Nat
  f : Nat
  g : Nat
  h : Nat
deriving DecidableEq, Repr

/-- SHA-256 initial hash value, as decimal naturals. -/
def initHash : Hash8 :=
  ⟨1779033703, 3144134277, 1013904242, 2773480762,
   1359893119, 2600822924, 528734635, 1541459225⟩

/-- UTF-8 encoding of one character (Rust `str::as_bytes` is UTF-8). -/
def utf8EncodeChar (c : Char) : List Nat :=
  let n := c.toNat
  if n < 0x80 then [n]
  else if n < 0x800 then
    [0xC0 ||| (n >>> 6), 0x80 ||| (n &&& 0x3F)]
  else if n < 0x10000 then
    [0xE0 ||| (n >>> 12), 0x80 ||| ((n >>> 6) &&& 0x3F), 0x80 ||| (n &&& 0x3F)]
  else
    [0xF0 ||| (n >>> 18), 0x80 ||| ((n >>> 12) &&& 0x3F),
     0x80 ||| ((n >>> 6) &&& 0x3F), 0x80 ||| (n &&& 0x3F)]

/-- UTF-8 bytes of a string. -/
def utf8Bytes (s : Str) : List Nat := (s.map utf8EncodeChar).flatten

/-- `k` bytes of `n`, big-endian. -/
def beBytes (k n : Nat) : List Nat :=
  (List.range k).map (fun i => (n >>> (8 * (k - 1 - i))) % 256)

/-- SHA-256 message padding: `0x80`, zeros, and the 64-bit bit length,
to a multiple of 64 bytes. -/
def padMsg (msg : List Nat) : List Nat :=
  let zeros := (64 - ((msg.length + 9) % 64)) % 64
  msg ++ [0x80] ++ List.replicate zeros 0 ++ beBytes 8 (8 * msg.length)

/-- Big-endian 32-bit words from bytes. -/
def toWords : List Nat → List Nat
  | a :: b :: c :: d :: rest => (((a * 256 + b) * 256 + c) * 256 + d) :: toWords rest
  | _ => []

/-- 16-word message blocks. -/
def toBlocks : List Nat → List (List Nat)
  | w0 :: w1 :: w2 :: w3 :: w4 :: w5 :: w6 :: w7 ::
      w8 :: w9 :: w10 :: w11 :: w12 :: w13 :: w14 :: w15 :: rest =>
    [w0, w1, w2, w3, w4, w5, w6, w7, w8, w9, w10, w11, w12, w13, w14, w15] ::
      toBlocks rest
  | _ => []

/-- Message-schedule extension: `n` more words, `acc` holding the words so
far most-recent-first; returns the full schedule in order. -/
def extendW : Nat → List Nat → List Nat
  | 0, acc => acc.reverse
  | n + 1, acc =>
    extendW n
      (w32 (ssig1 (acc.getD 1 0) + acc.getD 6 0 + ssig0 (acc.getD 14 0) +
        acc.getD 15 0) :: acc)

/-- The 64-word message schedule of a block. -/
def msgSchedule (block : List Nat) : List Nat := extendW 48 block.reverse

/-- One SHA-256 compression round, on `(Kₜ, Wₜ)`. -/
def shaRound (r : Hash8) (kw : Nat × Nat) : Hash8 :=
  let t1 := w32 (r.h + bsig1 r.e + chF r.e r.f r.g + kw.1 + kw.2)
  let t2 := w32 (bsig0 r.a + majF r.a r.b r.c)
  ⟨w32 (t1 + t2), r.a, r.b, r.c, w32 (r.d + t1), r.e, r.f, r.g⟩

/-- Compression of one block into the running hash. -/
def compressBlock (H : Hash8) (block : List Nat) : Hash8 :=
  let r := (K256.zip (msgSchedule block)).foldl shaRound H
  ⟨w32 (H.a + r.a), w32 (H.b + r.b), w32 (H.c + r.c), w32 (H.d + r.d),
   w32 (H.e + r.e), w32 (H.f + r.f), w32 (H.g + r.g), w32 (H.h + r.h)⟩

/-- SHA-256 digest of a byte sequence, as eight 32-bit words. -/
def sha256Words (msg : List Nat) : List Nat :=
  let hf := (toBlocks (toWords (padMsg msg))).foldl compressBlock initHash
  [hf.a, hf.b, hf.c, hf.d, hf.e, hf.f, hf.g, hf.h]

/-- Lowercase hex digit. -/
def hexDigit (n : Nat) : Char :=
  if n < 10 then Char.ofNat (48 + n) else Char.ofNat (87 + n)

/-- Eight lowercase hex characters of a 32-bit word. -/
def hexWord (n : Nat) : Str :=
  (List.range 8).map (fun i => hexDigit ((n >>> (4 * (7 - i))) % 16))

/-- The hex digest string, as produced by `sha256::digest`. -/
def sha256hex (msg : List Nat) : Str := ((sha256Words msg).map hexWord).flatten

/-! ### Audit record construction and the request handler -/

/-- `AuditError`: a failed audit insert (sqlx `Err`). -/
structure AuditErr where
  msg : Str

/-- The `audit_logs` row (struct `AuditLog`, main.rs lines 20-29): note
there is no field for the raw input text, only `input_hash`. -/
structure AuditLog where
  agentId : Nat
  policyId : Nat
  timestamp : Int
  inputHash : Str
  decision : Str
  latencyMs : Int
deriving DecidableEq, Repr

/-- The `EvaluateResponse` body (main.rs lines 38-43, 146-150). -/
structure EvaluateResponse where
  decision : Str
  reason : Str
  checksRun : List Str
deriving DecidableEq, Repr

/-- The persisted `policy_id`:
`audit_policy_id.unwrap_or_else(Uuid::new_v4)` (main.rs line 136), with
the random `Uuid::new_v4()` output passed in as `fresh`. -/
def persistedPolicyId (s : EvalState) (fresh : Nat) : Nat :=
  s.auditPolicyId.getD fresh

/-- The audit row inserted at main.rs lines 133-141.  `fresh` is the
value `Uuid::new_v4()` would return; `ts` and `latencyMs` come from the
clock. -/
def auditRecordOf (agentId : Nat) (input : Str) (s : EvalState)
    (fresh : Nat) (ts latencyMs : Int) : AuditLog :=
  { agentId := agentId
    policyId := persistedPolicyId s fresh
    timestamp := ts
    inputHash := sha256hex (utf8Bytes input)
    decision := decisionStr s.decision
    latencyMs := latencyMs }

/-- The whole request handler `evaluate_guardrails`: evaluation, audit
insert, response.  The `.expect("Failed to insert audit log")` on a
failed insert is a panic that aborts the request before any response is
produced, modelled as `none`. -/
def handleEvaluate (agentId : Nat) (input : Str)
    (store : Except StoreErr (List Policy))
    (sink : AuditLog → Except AuditErr Unit)
    (fresh : Nat) (ts latencyMs : Int) : Option EvaluateResponse :=
  let s := evaluateGuardrails input store
  match sink (auditRecordOf agentId input s fresh ts latencyMs) with
  | .ok _ =>
    some { decision := decisionStr s.decision
           reason := s.reason
           checksRun := s.checksRun }
  | .error _ => none

/-! ### Severity ordering and basic step lemmas -/

/-- Severity rank: DENIED > WARN > ALLOWED. -/
def rank : Decision → Nat
  | .ALLOWED => 0
  | .WARN => 1
  | .DENIED => 2

/-! ### Audit attribution -/

/-- The custom rule of policy `p` fired on `input`. -/
def customFired (input : Str) (p : Policy) : Prop :=
  p.policyType = "custom".toList ∧ (customMatch input p).isSome = true

instance (input : Str) (p : Policy) : Decidable (customFired input p) := by
  unfold customFired; infer_instance

/-- The built-in attribution condition of the three non-custom loop
branches (main.rs lines 105-121), as a function of the current decision
and reason. -/
def attrCond (d : Decision) (reason : Str) (p : Policy) : Prop :=
  (p.policyType = "pii".toList ∧ d = .DENIED ∧
    containsStr reason "PII detected".toList) ∨
  (p.policyType = "content_safety".toList ∧ d = .DENIED ∧
    containsStr reason "Content safety".toList) ∨
  (p.policyType = "prompt_injection".toList ∧ d = .WARN ∧
    containsStr reason "prompt injection".toList)

instance (d : Decision) (reason : Str) (p : Policy) :
    Decidable (attrCond d reason p) := by
  unfold attrCond; infer_instance

/-! ### Concrete fixtures used by counterexamples and witnesses -/

/-- An input that trips the built-in PII check. -/
def cexInput : Str := "My SSN is 123".toList

/-- An enabled `pii`-type policy. -/
def piiPolicy : Policy :=
  ⟨1, 0, "PiiPol".toList, none, "pii".toList, none, true, 0⟩

/-- An enabled `content_safety`-type policy. -/
def csPolicy : Policy :=
  ⟨2, 0, "CsPol".toList, none, "content_safety".toList, none, true, 0⟩

/-- An enabled `custom`-type policy whose second deny-keyword "123"
matches `cexInput`. -/
def kwPolicy : Policy :=
  ⟨3, 0, "KwPol".toList, none, "custom".toList,
   some (Json.obj [("deny_keywords".toList,
     Json.arr [Json.str "foo".toList, Json.str "123".toList])]), true, 0⟩

/-- An enabled `custom`-type policy with deny-keywords ["foo", "bar"]. -/
def fooBarPolicy : Policy :=
  ⟨5, 0, "FooBar".toList, none, "custom".toList,
   some (Json.obj [("deny_keywords".toList,
     Json.arr [Json.str "foo".toList, Json.str "bar".toList])]), true, 0⟩

/-- A state the built-in PII check has just denied, for witnesses. -/
def deniedState : EvalState :=
  ⟨.DENIED, "PII detected in prompt.".toList, ["PII_Detection".toList], none⟩

theorem rank_le_two (d : Decision) : rank d ≤ 2 := by
  cases d <;> simp [rank]

theorem piiCheck_decision_cases (input : Str) (s : EvalState) :
    (piiCheck input s).decision = s.decision ∨ (piiCheck input s).decision = .DENIED := by
  unfold piiCheck; split <;> simp

theorem contentSafetyCheck_decision_cases (input : Str) (s : EvalState) :
    (contentSafetyCheck input s).decision = s.decision ∨
      (contentSafetyCheck input s).decision = .DENIED := by
  unfold contentSafetyCheck; split <;> simp

theorem promptInjectionCheck_decision_cases (input : Str) (s : EvalState) :
    (promptInjectionCheck input s).decision = s.decision ∨
      ((promptInjectionCheck input s).decision = .WARN ∧ s.decision = .ALLOWED) := by
  unfold promptInjectionCheck
  split
  · split <;> simp_all
  · simp

theorem policyStep_decision_cases (input : Str) (s : EvalState) (p : Policy) :
    (policyStep input s p).decision = s.decision ∨
      (policyStep input s p).decision = .DENIED := by
  unfold policyStep
  repeat' split
  all_goals simp

theorem contentSafetyCheck_of_denied (input : Str) (s : EvalState)
    (h : s.decision = .DENIED) : contentSafetyCheck input s = s := by
  simp [contentSafetyCheck, h]

theorem promptInjectionCheck_of_denied (input : Str) (s : EvalState)
    (h : s.decision = .DENIED) : promptInjectionCheck input s = s := by
  simp [promptInjectionCheck, h]

theorem policyStep_of_denied (input : Str) (s : EvalState) (p : Policy)
    (h : s.decision = .DENIED) : (policyStep input s p).decision = .DENIED := by
  rcases policyStep_decision_cases input s p with hc | hc <;> simp [hc, h]

/-! ### Policy-loop lemmas -/

theorem policyLoop_decision_cases (input : Str) (ps : List Policy) :
    ∀ s : EvalState, ((policyLoop input s ps).1.decision = s.decision ∨
      (policyLoop input s ps).1.decision = .DENIED) := by
  induction ps with
  | nil => intro s; simp [policyLoop]
  | cons p rest ih =>
    intro s
    simp only [policyLoop]
    split
    · simp_all
    · rcases ih (policyStep input s p) with hr | hr
      · rcases policyStep_decision_cases input s p with hs | hs
        · left; rw [hr, hs]
        · right; rw [hr, hs]
      · right; exact hr

theorem policyLoop_of_denied (input : Str) (s : EvalState) (p : Policy)
    (rest : List Policy) (h : s.decision = .DENIED) :
    policyLoop input s (p :: rest) = (policyStep input s p, [p]) := by
  simp [policyLoop, policyStep_of_denied input s p h]

theorem policyLoop_visits_all_of_not_denied (input : Str) (ps : List Policy) :
    ∀ s : EvalState, (policyLoop input s ps).1.decision ≠ .DENIED →
      (policyLoop input s ps).2 = ps := by
  induction ps with
  | nil => intro s _; simp [policyLoop]
  | cons p rest ih =>
    intro s h
    simp only [policyLoop] at h ⊢
    by_cases hc : (policyStep input s p).decision = Decision.DENIED
    · rw [if_pos hc] at h
      exact absurd hc h
    · rw [if_neg hc] at h ⊢
      simpa using ih (policyStep input s p) h

theorem policyLoop_visited_shape (input : Str) (ps : List Policy) :
    ∀ s : EvalState, (policyLoop input s ps).2 = ps ∨
      ((policyLoop input s ps).1.decision = .DENIED ∧
        ∃ n, n < ps.length ∧ (policyLoop input s ps).2 = ps.take (n + 1)) := by
  induction ps with
  | nil => intro s; simp [policyLoop]
  | cons p rest ih =>
    intro s
    simp only [policyLoop]
    split
    · right
      refine ⟨by assumption, 0, by simp, ?_⟩
      simp [List.take]
    · rcases ih (policyStep input s p) with hr | ⟨hd, n, hn, hv⟩
      · left; simp [hr]
      · right
        exact ⟨hd, n + 1, by simpa using hn, by simp [hv]⟩

theorem policyStep_custom_match (input : Str) (s : EvalState) (p : Policy)
    (k : Str) (ht : p.policyType = "custom".toList)
    (hm : customMatch input p = some k) :
    policyStep input s p =
      ⟨.DENIED, customReason p.name k,
       s.checksRun ++ [customCheckId p.name], some p.id⟩ := by
  simp [policyStep, ht, hm]

theorem policyStep_custom_nomatch (input : Str) (s : EvalState) (p : Policy)
    (ht : p.policyType = "custom".toList)
    (hm : customMatch input p = none) :
    policyStep input s p = s := by
  simp [policyStep, ht, hm]

/-- When the custom rule does not fire, a loop iteration only possibly
attributes: it behaves as the built-in attribution conditional. -/
theorem policyStep_not_fired_eq (input : Str) (s : EvalState) (p : Policy)
    (h : ¬ customFired input p) :
    policyStep input s p =
      if attrCond s.decision s.reason p ∧ s.auditPolicyId = none
      then { s with auditPolicyId := some p.id } else s := by
  by_cases ht : p.policyType = "custom".toList
  · have hm : customMatch input p = none := by
      cases hcm : customMatch input p with
      | none => rfl
      | some k => exact absurd ⟨ht, by simp [hcm]⟩ h
    have hC : ¬ attrCond s.decision s.reason p := by
      rintro (⟨h1, _⟩ | ⟨h1, _⟩ | ⟨h1, _⟩) <;> rw [ht] at h1 <;>
        exact absurd h1 (by decide)
    rw [if_neg (fun hc => hC hc.1)]
    exact policyStep_custom_nomatch input s p ht hm
  · by_cases h1 : p.policyType = "pii".toList
    · have hC : attrCond s.decision s.reason p ↔
          s.decision = .DENIED ∧ containsStr s.reason "PII detected".toList := by
        constructor
        · rintro (⟨_, hd, hr⟩ | ⟨h2, _⟩ | ⟨h2, _⟩)
          · exact ⟨hd, hr⟩
          · rw [h1] at h2; exact absurd h2 (by decide)
          · rw [h1] at h2; exact absurd h2 (by decide)
        · rintro ⟨hd, hr⟩; exact Or.inl ⟨h1, hd, hr⟩
      simp only [policyStep, if_neg ht, if_pos h1]
      by_cases h2 : s.decision = Decision.DENIED ∧
          containsStr s.reason "PII detected".toList ∧ s.auditPolicyId = none
      · rw [if_pos h2, if_pos ⟨hC.2 ⟨h2.1, h2.2.1⟩, h2.2.2⟩]
      · rw [if_neg h2,
          if_neg (fun hc => h2 ⟨(hC.1 hc.1).1, (hC.1 hc.1).2, hc.2⟩)]
    · by_cases h3 : p.policyType = "content_safety".toList
      · have hC : attrCond s.decision s.reason p ↔
            s.decision = .DENIED ∧
              containsStr s.reason "Content safety".toList := by
          constructor
          · rintro (⟨h2, _⟩ | ⟨_, hd, hr⟩ | ⟨h2, _⟩)
            · rw [h3] at h2; exact absurd h2 (by decide)
            · exact ⟨hd, hr⟩
            · rw [h3] at h2; exact absurd h2 (by decide)
          · rintro ⟨hd, hr⟩; exact Or.inr (Or.inl ⟨h3, hd, hr⟩)
        simp only [policyStep, if_neg ht, if_neg h1, if_pos h3]
        by_cases h2 : s.decision = Decision.DENIED ∧
            containsStr s.reason "Content safety".toList ∧ s.auditPolicyId = none
        · rw [if_pos h2, if_pos ⟨hC.2 ⟨h2.1, h2.2.1⟩, h2.2.2⟩]
        · rw [if_neg h2,
            if_neg (fun hc => h2 ⟨(hC.1 hc.1).1, (hC.1 hc.1).2, hc.2⟩)]
      · by_cases h4 : p.policyType = "prompt_injection".toList
        · have hC : attrCond s.decision s.reason p ↔
              s.decision = .WARN ∧
                containsStr s.reason "prompt injection".toList := by
            constructor
            · rintro (⟨h2, _⟩ | ⟨h2, _⟩ | ⟨_, hd, hr⟩)
              · rw [h4] at h2; exact absurd h2 (by decide)
              · rw [h4] at h2; exact absurd h2 (by decide)
              · exact ⟨hd, hr⟩
            · rintro ⟨hd, hr⟩; exact Or.inr (Or.inr ⟨h4, hd, hr⟩)
          simp only [policyStep, if_neg ht, if_neg h1, if_neg h3, if_pos h4]
          by_cases h2 : s.decision = Decision.WARN ∧
              containsStr s.reason "prompt injection".toList ∧
                s.auditPolicyId = none
          · rw [if_pos h2, if_pos ⟨hC.2 ⟨h2.1, h2.2.1⟩, h2.2.2⟩]
          · rw [if_neg h2,
              if_neg (fun hc => h2 ⟨(hC.1 hc.1).1, (hC.1 hc.1).2, hc.2⟩)]
        · have hC : ¬ attrCond s.decision s.reason p := by
            rintro (⟨h2, _⟩ | ⟨h2, _⟩ | ⟨h2, _⟩)
            · exact h1 h2
            · exact h3 h2
            · exact h4 h2
          simp only [policyStep, if_neg ht, if_neg h1, if_neg h3, if_neg h4]
          rw [if_neg (fun hc => hC hc.1)]

/-- Once attributed, the attribution survives the rest of the loop unless
a custom policy fires (line 97 overwrites unconditionally). -/
theorem policyLoop_attr_of_some (input : Str) (ps : List Policy) :
    ∀ (s : EvalState) (pid : Nat), s.auditPolicyId = some pid →
      (policyLoop input s ps).1.auditPolicyId = some pid ∨
      ∃ p ∈ ps, (policyLoop input s ps).1.auditPolicyId = some p.id ∧
        customFired input p ∧ (policyLoop input s ps).1.decision = .DENIED := by
  induction ps with
  | nil => intro s pid h; left; simpa [policyLoop] using h
  | cons p rest ih =>
    intro s pid h
    by_cases hf : customFired input p
    · obtain ⟨ht, hm⟩ := hf
      obtain ⟨k, hk⟩ : ∃ k, customMatch input p = some k :=
        Option.isSome_iff_exists.mp hm
      have hstep := policyStep_custom_match input s p k ht hk
      right
      refine ⟨p, by simp, ?_, ⟨ht, hm⟩, ?_⟩ <;> simp [policyLoop, hstep]
    · have hs1 : policyStep input s p = s := by
        rw [policyStep_not_fired_eq input s p hf, if_neg]
        rintro ⟨_, hn⟩
        rw [h] at hn; cases hn
      by_cases hd : s.decision = Decision.DENIED
      · left
        simp only [policyLoop, hs1, if_pos hd]
        exact h
      · simp only [policyLoop, hs1, if_neg hd]
        rcases ih s pid h with hl | ⟨q, hq, hres⟩
        · left; exact hl
        · right; exact ⟨q, by simp [hq], hres⟩

/-- Starting unattributed, the final attribution is either still absent,
or the first policy (in order) meeting the built-in attribution
condition, or a custom policy that fired. -/
theorem policyLoop_attr_of_none (input : Str) (ps : List Policy) :
    ∀ s : EvalState, s.auditPolicyId = none →
      (policyLoop input s ps).1.auditPolicyId = none ∨
      ∃ l₁ p l₂, ps = l₁ ++ p :: l₂ ∧
        (policyLoop input s ps).1.auditPolicyId = some p.id ∧
        ((customFired input p ∧ (policyLoop input s ps).1.decision = .DENIED) ∨
         (attrCond s.decision s.reason p ∧
           ∀ q ∈ l₁, ¬ attrCond s.decision s.reason q)) := by
  induction ps with
  | nil => intro s h; left; simpa [policyLoop] using h
  | cons p rest ih =>
    intro s h
    by_cases hf : customFired input p
    · obtain ⟨ht, hm⟩ := hf
      obtain ⟨k, hk⟩ : ∃ k, customMatch input p = some k :=
        Option.isSome_iff_exists.mp hm
      have hstep := policyStep_custom_match input s p k ht hk
      right
      exact ⟨[], p, rest, by simp, by simp [policyLoop, hstep],
        Or.inl ⟨⟨ht, by simp [hk]⟩, by simp [policyLoop, hstep]⟩⟩
    · have hstep := policyStep_not_fired_eq input s p hf
      by_cases hA : attrCond s.decision s.reason p
      · have hs1 : policyStep input s p = { s with auditPolicyId := some p.id } := by
          rw [hstep, if_pos ⟨hA, h⟩]
        by_cases hd : s.decision = Decision.DENIED
        · right
          refine ⟨[], p, rest, by simp, ?_, Or.inr ⟨hA, by simp⟩⟩
          simp only [policyLoop, hs1]
          rw [if_pos (by simpa using hd)]
        · have hloop : policyLoop input s (p :: rest) =
              ((policyLoop input { s with auditPolicyId := some p.id } rest).1,
               p :: (policyLoop input { s with auditPolicyId := some p.id } rest).2) := by
            simp only [policyLoop, hs1]
            rw [if_neg (by simpa using hd)]
          rcases policyLoop_attr_of_some input rest
              { s with auditPolicyId := some p.id } p.id (by simp) with hl | ⟨q, hq, hres, hfq, hdq⟩
          · right
            exact ⟨[], p, rest, by simp, by rw [hloop]; exact hl,
              Or.inr ⟨hA, by simp⟩⟩
          · obtain ⟨l₁', l₂', rfl⟩ := List.append_of_mem hq
            right
            exact ⟨p :: l₁', q, l₂', by simp, by rw [hloop]; exact hres,
              Or.inl ⟨hfq, by rw [hloop]; exact hdq⟩⟩
      · have hs1 : policyStep input s p = s := by
          rw [hstep, if_neg (fun hc => hA hc.1)]
        by_cases hd : s.decision = Decision.DENIED
        · left
          simp only [policyLoop, hs1, if_pos hd]
          exact h
        · have hloop : policyLoop input s (p :: rest) =
              ((policyLoop input s rest).1, p :: (policyLoop input s rest).2) := by
            simp only [policyLoop, hs1, if_neg hd]
          rcases ih s h with hl | ⟨l₁, q, l₂, hsplit, hres, hcase⟩
          · left; rw [hloop]; exact hl
          · right
            refine ⟨p :: l₁, q, l₂, by simp [hsplit], by rw [hloop]; exact hres, ?_⟩
            rcases hcase with ⟨hfq, hdq⟩ | ⟨hAq, hprev⟩
            · exact Or.inl ⟨hfq, by rw [hloop]; exact hdq⟩
            · refine Or.inr ⟨hAq, ?_⟩
              intro q' hq'
              rcases List.mem_cons.mp hq' with rfl | hq'
              · exact hA
              · exact hprev q' hq'

/-! ### Built-in checks: auxiliary facts -/

theorem piiCheck_audit (input : Str) (s : EvalState) :
    (piiCheck input s).auditPolicyId = s.auditPolicyId := by
  unfold piiCheck; split <;> rfl

theorem contentSafetyCheck_audit (input : Str) (s : EvalState) :
    (contentSafetyCheck input s).auditPolicyId = s.auditPolicyId := by
  unfold contentSafetyCheck; split <;> rfl

theorem promptInjectionCheck_audit (input : Str) (s : EvalState) :
    (promptInjectionCheck input s).auditPolicyId = s.auditPolicyId := by
  unfold promptInjectionCheck
  repeat' split
  all_goals rfl

theorem builtinChecks_audit_none (input : Str) :
    (builtinChecks input).auditPolicyId = none := by
  unfold builtinChecks
  rw [promptInjectionCheck_audit, contentSafetyCheck_audit, piiCheck_audit]
  rfl

/-! ### Keyword matching: characterization -/

theorem Json.asStr_eq_some {j : Json} {s : Str} (h : j.asStr = some s) :
    j = Json.str s := by
  cases j <;> simp [Json.asStr] at h
  rw [h]

theorem firstMatch_eq_some (input : Str) : ∀ (kws : List Json) (k : Str),
    firstMatch input kws = some k →
    containsStr (lower input) (lower k) = true ∧
    ∃ l₁ l₂, kws = l₁ ++ Json.str k :: l₂ ∧
      ∀ j ∈ l₁, ∀ k', j.asStr = some k' →
        containsStr (lower input) (lower k') = false := by
  intro kws
  induction kws with
  | nil => intro k h; cases h
  | cons j rest ih =>
    intro k h
    simp only [firstMatch] at h
    cases hj : j.asStr with
    | some kw =>
      rw [hj] at h
      have h2 : (if containsStr (lower input) (lower kw) = true then some kw
          else firstMatch input rest) = some k := h
      by_cases hc : containsStr (lower input) (lower kw) = true
      · rw [if_pos hc] at h2
        obtain rfl : kw = k := by injection h2
        exact ⟨hc, [], rest, by rw [Json.asStr_eq_some hj]; rfl, by simp⟩
      · rw [if_neg hc] at h2
        obtain ⟨hk, l₁, l₂, hsplit, hprev⟩ := ih k h2
        refine ⟨hk, j :: l₁, l₂, by simp [hsplit], ?_⟩
        intro j' hj' k' hk'
        rcases List.mem_cons.mp hj' with rfl | hj'
        · rw [hj] at hk'
          obtain rfl : kw = k' := by injection hk'
          exact Bool.not_eq_true _ ▸ eq_false_of_ne_true hc
        · exact hprev j' hj' k' hk'
    | none =>
      rw [hj] at h
      obtain ⟨hk, l₁, l₂, hsplit, hprev⟩ := ih k h
      refine ⟨hk, j :: l₁, l₂, by simp [hsplit], ?_⟩
      intro j' hj' k' hk'
      rcases List.mem_cons.mp hj' with rfl | hj'
      · rw [hj] at hk'; cases hk'
      · exact hprev j' hj' k' hk'

/-! ### Claims -/

/-- C1: the spec requires that an evaluation with no attributable policy
persist an explicit "unattributed" sentinel (or NULL), never a freshly
generated random identifier.  The code violates this: at main.rs line 136
it persists `audit_policy_id.unwrap_or_else(Uuid::new_v4)`, so for an
evaluation with no attributable policy (input "hello", empty policy set)
the persisted `policy_id` equals whatever identifier `Uuid::new_v4()`
freshly produced (`fresh` here), for every such identifier. -/
theorem C1_unattributed_persists_fresh_uuid (fresh : Nat) :
    (evaluateGuardrails "hello".toList (Except.ok [])).auditPolicyId = none ∧
    persistedPolicyId (evaluateGuardrails "hello".toList (Except.ok [])) fresh = fresh ∧
    (auditRecordOf 7 "hello".toList
      (evaluateGuardrails "hello".toList (Except.ok [])) fresh 0 0).policyId = fresh := by
  refine ⟨by decide, rfl, rfl⟩

/-- C2 counterexample: the claim says the loop leaves the store-returned
sequence unfinished only when a custom policy produced DENIED.  On input
"My SSN is 123" the built-in PII check sets DENIED before the loop; with
the two non-custom policies `[piiPolicy, csPolicy]` the loop examines only
the first policy (break at main.rs line 123) even though no custom policy
produced anything. -/
theorem C2_counterexample :
    (builtinChecks cexInput).decision = Decision.DENIED ∧
    (∀ p ∈ [piiPolicy, csPolicy], p.policyType ≠ "custom".toList) ∧
    (policyLoop cexInput (builtinChecks cexInput) [piiPolicy, csPolicy]).2.map Policy.id
      = [1] ∧
    [piiPolicy, csPolicy].map Policy.id = [1, 2] := by
  decide

/-- C2 (amended): the loop stops before the end of the store-returned
sequence exactly when the decision is DENIED at the end of an iteration —
whether that DENIED came from a custom policy in that iteration or from a
built-in check before the loop (in which case it stops after the first
policy); whenever the final decision is not DENIED, every policy in the
sequence is examined exactly once, in order. -/
theorem C2_loop_termination (input : Str) (ps : List Policy)
    (p : Policy) (rest : List Policy) :
    ((policyLoop input (builtinChecks input) ps).1.decision ≠ Decision.DENIED →
      (policyLoop input (builtinChecks input) ps).2 = ps) ∧
    ((policyLoop input (builtinChecks input) ps).2 ≠ ps →
      (policyLoop input (builtinChecks input) ps).1.decision = Decision.DENIED ∧
      ∃ n, n < ps.length ∧
        (policyLoop input (builtinChecks input) ps).2 = ps.take (n + 1)) ∧
    ((builtinChecks input).decision = Decision.DENIED →
      (policyLoop input (builtinChecks input) (p :: rest)).2 = [p]) := by
  refine ⟨fun h => policyLoop_visits_all_of_not_denied input ps (builtinChecks input) h,
    fun h => ?_, fun h => ?_⟩
  · rcases policyLoop_visited_shape input ps (builtinChecks input) with hv | ⟨hd, hn⟩
    · exact absurd hv h
    · exact ⟨hd, hn⟩
  · rw [policyLoop_of_denied input (builtinChecks input) p rest h]

/-- C2 witness: the amended statement at concrete inputs.  With no
trigger the loop scans both policies; with the PII trigger it is DENIED
and stops after the first. -/
theorem C2_loop_termination_witness :
    (policyLoop "hello".toList (builtinChecks "hello".toList)
      [piiPolicy, csPolicy]).2 = [piiPolicy, csPolicy] ∧
    ((policyLoop cexInput (builtinChecks cexInput) [piiPolicy, csPolicy]).1.decision
        = Decision.DENIED ∧
      ∃ n, n < ([piiPolicy, csPolicy] : List Policy).length ∧
        (policyLoop cexInput (builtinChecks cexInput) [piiPolicy, csPolicy]).2
          = [piiPolicy, csPolicy].take (n + 1)) ∧
    (policyLoop cexInput (builtinChecks cexInput) (piiPolicy :: [csPolicy])).2
      = [piiPolicy] :=
  ⟨(C2_loop_termination "hello".toList [piiPolicy, csPolicy] piiPolicy []).1
      (by decide),
   (C2_loop_termination cexInput [piiPolicy, csPolicy] piiPolicy []).2.1
      (fun h => absurd (congrArg (List.map Policy.id) h) (by decide)),
   (C2_loop_termination cexInput [] piiPolicy [csPolicy]).2.2 (by decide)⟩

/-- C3: at most one policy id is attributed per evaluation (the audit
field is a single `Option`), and when one is attributed it is either a
custom policy whose keyword rule fired (with final decision DENIED), or
the first policy in store order meeting the built-in attribution
condition for the decision and reason the built-in checks produced. -/
theorem C3_attribution_uniqueness (input : Str) (ps : List Policy) :
    (evaluateGuardrails input (Except.ok ps)).auditPolicyId = none ∨
    ∃ l₁ p l₂, ps = l₁ ++ p :: l₂ ∧
      (evaluateGuardrails input (Except.ok ps)).auditPolicyId = some p.id ∧
      ((customFired input p ∧
        (evaluateGuardrails input (Except.ok ps)).decision = Decision.DENIED) ∨
       (attrCond (builtinChecks input).decision (builtinChecks input).reason p ∧
        ∀ q ∈ l₁,
          ¬ attrCond (builtinChecks input).decision (builtinChecks input).reason q)) := by
  have h := policyLoop_attr_of_none input ps (builtinChecks input)
    (builtinChecks_audit_none input)
  simpa [evaluateGuardrails] using h

/-- C4: the decision evolves monotonically under DENIED > WARN > ALLOWED
through every check and every policy-loop stage; DENIED is absorbing; and
WARN only ever arises at the prompt-injection check from an ALLOWED
state (no other stage introduces WARN). -/
theorem C4_decision_monotone (input : Str) (p : Policy) (ps : List Policy)
    (s : EvalState) :
    rank s.decision ≤ rank (piiCheck input s).decision ∧
    rank s.decision ≤ rank (contentSafetyCheck input s).decision ∧
    rank s.decision ≤ rank (promptInjectionCheck input s).decision ∧
    rank s.decision ≤ rank (policyStep input s p).decision ∧
    rank s.decision ≤ rank (policyLoop input s ps).1.decision ∧
    (s.decision = Decision.DENIED →
      contentSafetyCheck input s = s ∧ promptInjectionCheck input s = s ∧
      (policyStep input s p).decision = Decision.DENIED ∧
      (policyLoop input s ps).1.decision = Decision.DENIED) ∧
    ((promptInjectionCheck input s).decision = Decision.WARN →
      s.decision = Decision.ALLOWED ∨ s.decision = Decision.WARN) ∧
    ((piiCheck input s).decision = Decision.WARN → s.decision = Decision.WARN) ∧
    ((contentSafetyCheck input s).decision = Decision.WARN →
      s.decision = Decision.WARN) ∧
    ((policyLoop input s ps).1.decision = Decision.WARN →
      s.decision = Decision.WARN) := by
  have mono : ∀ d : Decision, ∀ x : Decision,
      x = d ∨ x = Decision.DENIED → rank d ≤ rank x := by
    rintro d x (rfl | rfl)
    · exact le_refl _
    · exact rank_le_two d
  refine ⟨mono _ _ (piiCheck_decision_cases input s),
    mono _ _ (contentSafetyCheck_decision_cases input s), ?_,
    mono _ _ (policyStep_decision_cases input s p),
    mono _ _ (policyLoop_decision_cases input ps s), ?_, ?_, ?_, ?_, ?_⟩
  · rcases promptInjectionCheck_decision_cases input s with hc | ⟨hw, ha⟩
    · rw [hc]
    · rw [hw, ha]; decide
  · intro hd
    refine ⟨contentSafetyCheck_of_denied input s hd,
      promptInjectionCheck_of_denied input s hd,
      policyStep_of_denied input s p hd, ?_⟩
    rcases policyLoop_decision_cases input ps s with hc | hc
    · rw [hc, hd]
    · exact hc
  · intro hw
    rcases promptInjectionCheck_decision_cases input s with hc | ⟨_, ha⟩
    · right; rw [← hc, hw]
    · left; exact ha
  · intro hw
    rcases piiCheck_decision_cases input s with hc | hc
    · rw [← hc, hw]
    · rw [hc] at hw; cases hw
  · intro hw
    rcases contentSafetyCheck_decision_cases input s with hc | hc
    · rw [← hc, hw]
    · rw [hc] at hw; cases hw
  · intro hw
    rcases policyLoop_decision_cases input ps s with hc | hc
    · rw [← hc, hw]
    · rw [hc] at hw; cases hw

/-- C4 witness: the DENIED-absorbing and WARN-origin implications at
concrete states. -/
theorem C4_decision_monotone_witness :
    (contentSafetyCheck "violence".toList deniedState = deniedState ∧
      promptInjectionCheck "violence".toList deniedState = deniedState ∧
      (policyStep "violence".toList deniedState piiPolicy).decision = Decision.DENIED ∧
      (policyLoop "violence".toList deniedState [piiPolicy]).1.decision
        = Decision.DENIED) ∧
    (initState.decision = Decision.ALLOWED ∨ initState.decision = Decision.WARN) :=
  ⟨(C4_decision_monotone "violence".toList piiPolicy [piiPolicy]
      deniedState).2.2.2.2.2.1 rfl,
   (C4_decision_monotone "ignore all previous instructions".toList piiPolicy []
      initState).2.2.2.2.2.2.1 (by decide)⟩

/-- C5: the spec requires that evaluation never fail and that an
audit-persistence failure be surfaced as a distinct error alongside the
computed outcome.  The code violates this: `.expect("Failed to insert
audit log")` (main.rs line 144) panics on a failed insert, aborting the
request with no response, while on a successful insert exactly one
response is produced. -/
theorem C5_audit_failure_aborts :
    handleEvaluate 7 "hello".toList (Except.ok [])
      (fun _ => Except.error ⟨"db down".toList⟩) 0 0 0 = none ∧
    handleEvaluate 7 "hello".toList (Except.ok [])
      (fun _ => Except.ok ()) 0 0 0 =
      some ⟨"ALLOWED".toList, "No issues detected.".toList, []⟩ := by
  constructor <;> rfl

/-- C6: keyword matching is case-insensitive substring containment, in
declared list order with the first matching keyword winning; on a match
the iteration's state becomes DENIED with the policy's name and the
matched keyword in the reason, `Custom_Policy:<name>` appended to
`checks_run`, and the policy's id attributed.  The claim's example:
keywords ["foo", "bar"] against "this has FOO and bar" match "foo". -/
theorem C6_custom_keyword_rule (input : Str) (p : Policy) (s : EvalState)
    (k : Str) :
    (customMatch input p = some k →
      containsStr (lower input) (lower k) = true ∧
      ∃ rule kws, p.ruleJson = some rule ∧
        (rule.index "deny_keywords".toList).asArray = some kws ∧
        ∃ l₁ l₂, kws = l₁ ++ Json.str k :: l₂ ∧
          ∀ j ∈ l₁, ∀ k', j.asStr = some k' →
            containsStr (lower input) (lower k') = false) ∧
    (p.policyType = "custom".toList → customMatch input p = some k →
      policyStep input s p =
        ⟨Decision.DENIED, customReason p.name k,
         s.checksRun ++ [customCheckId p.name], some p.id⟩) ∧
    firstMatch "this has FOO and bar".toList
      [Json.str "foo".toList, Json.str "bar".toList] = some "foo".toList := by
  refine ⟨fun hm => ?_, fun ht hm => policyStep_custom_match input s p k ht hm,
    by decide⟩
  unfold customMatch at hm
  cases hr : p.ruleJson with
  | none => rw [hr] at hm; cases hm
  | some rule =>
    rw [hr] at hm
    have hm2 : (match (rule.index "deny_keywords".toList).asArray with
      | some kws => firstMatch input kws
      | none => none) = some k := hm
    cases ha : (rule.index "deny_keywords".toList).asArray with
    | none =>
      rw [ha] at hm2
      have hm3 : (none : Option Str) = some k := hm2
      cases hm3
    | some kws =>
      rw [ha] at hm2
      have hm3 : firstMatch input kws = some k := hm2
      obtain ⟨hc, l₁, l₂, hsplit, hprev⟩ := firstMatch_eq_some input kws k hm3
      exact ⟨hc, rule, kws, rfl, ha, l₁, l₂, hsplit, hprev⟩

/-- C6 witness: the rule applied to the ["foo", "bar"] policy on the
claim's example input. -/
theorem C6_custom_keyword_rule_witness :
    policyStep "this has FOO and bar".toList initState fooBarPolicy =
      ⟨Decision.DENIED, customReason "FooBar".toList "foo".toList,
       [customCheckId "FooBar".toList], some 5⟩ :=
  (C6_custom_keyword_rule "this has FOO and bar".toList fooBarPolicy initState
    "foo".toList).2.1 (by decide) (by decide)

/-- On an input that trips only the content-safety check, the built-in
phase produces exactly the content-safety DENY. -/
theorem builtinChecks_cs_only (input : Str)
    (hv : containsStr (lower input) "violence".toList = true)
    (ha : containsStr input "SSN".toList = false)
    (hb : containsStr input "credit card".toList = false) :
    builtinChecks input =
      ⟨Decision.DENIED, "Content safety violation detected (Mocked).".toList,
       ["Content_Safety".toList], none⟩ := by
  unfold builtinChecks
  have hcond : ¬ ((containsStr input "SSN".toList ||
      containsStr input "credit card".toList) = true) := by
    rw [ha, hb]; decide
  have h1 : piiCheck input initState = initState := by
    unfold piiCheck
    rw [if_neg hcond]
  rw [h1]
  have h2 : contentSafetyCheck input initState =
      ⟨Decision.DENIED, "Content safety violation detected (Mocked).".toList,
       ["Content_Safety".toList], none⟩ := by
    unfold contentSafetyCheck
    rw [if_pos ⟨by decide, hv⟩]
    rfl
  rw [h2]
  exact promptInjectionCheck_of_denied input _ rfl

/-- C7: a failed policy fetch (`if let Ok` at main.rs line 85 not taken)
leaves the evaluation exactly the built-in checks' outcome rather than
aborting; in particular an input whose lowercase form contains "violence"
is still DENIED, and when the PII check did not fire the deny comes from
the content-safety check. -/
theorem C7_store_error_fail_open (input : Str) (e : StoreErr) :
    evaluateGuardrails input (Except.error e) = builtinChecks input ∧
    (containsStr (lower input) "violence".toList = true →
      (evaluateGuardrails input (Except.error e)).decision = Decision.DENIED) ∧
    (containsStr (lower input) "violence".toList = true →
      containsStr input "SSN".toList = false →
      containsStr input "credit card".toList = false →
      (evaluateGuardrails input (Except.error e)).checksRun
          = ["Content_Safety".toList] ∧
      (evaluateGuardrails input (Except.error e)).reason
          = "Content safety violation detected (Mocked).".toList) := by
  refine ⟨rfl, fun hv => ?_, fun hv ha hb => ?_⟩
  · show (builtinChecks input).decision = _
    unfold builtinChecks
    by_cases hp : (containsStr input "SSN".toList ||
        containsStr input "credit card".toList) = true
    · have h1 : (piiCheck input initState).decision = Decision.DENIED := by
        unfold piiCheck
        rw [if_pos hp]
      rw [promptInjectionCheck_of_denied input _
          (by rw [contentSafetyCheck_of_denied input _ h1]; exact h1),
        contentSafetyCheck_of_denied input _ h1]
      exact h1
    · have h1 : piiCheck input initState = initState := by
        unfold piiCheck
        rw [if_neg hp]
      rw [h1]
      have h2 : contentSafetyCheck input initState =
          ⟨Decision.DENIED,
           "Content safety violation detected (Mocked).".toList,
           ["Content_Safety".toList], none⟩ := by
        unfold contentSafetyCheck
        rw [if_pos ⟨by decide, hv⟩]
        rfl
      rw [h2, promptInjectionCheck_of_denied input _ rfl]
  · show (builtinChecks input).checksRun = _ ∧ (builtinChecks input).reason = _
    rw [builtinChecks_cs_only input hv ha hb]
    exact ⟨rfl, rfl⟩

/-- C7 witness: the fail-open behavior on the concrete input "violence"
with a failed policy fetch. -/
theorem C7_store_error_fail_open_witness :
    (evaluateGuardrails "violence".toList (Except.error ⟨"down".toList⟩)).decision
        = Decision.DENIED ∧
    (evaluateGuardrails "violence".toList (Except.error ⟨"down".toList⟩)).checksRun
        = ["Content_Safety".toList] ∧
    (evaluateGuardrails "violence".toList (Except.error ⟨"down".toList⟩)).reason
        = "Content safety violation detected (Mocked).".toList :=
  ⟨(C7_store_error_fail_open "violence".toList ⟨"down".toList⟩).2.1 (by decide),
   ((C7_store_error_fail_open "violence".toList ⟨"down".toList⟩).2.2
      (by decide) (by decide) (by decide)).1,
   ((C7_store_error_fail_open "violence".toList ⟨"down".toList⟩).2.2
      (by decide) (by decide) (by decide)).2⟩

/-- C8: the persisted audit row's `input_hash` is the SHA-256 hex digest
of the input's UTF-8 bytes, and the row depends on the input text only
through that digest (the `AuditLog` row has no raw-text field): two
inputs with equal digests yield identical rows, all else equal. -/
theorem C8_audit_input_hash (agentId : Nat) (input : Str) (s : EvalState)
    (fresh : Nat) (ts lat : Int) :
    (auditRecordOf agentId input s fresh ts lat).inputHash
        = sha256hex (utf8Bytes input) ∧
    ∀ input2, sha256hex (utf8Bytes input) = sha256hex (utf8Bytes input2) →
      auditRecordOf agentId input s fresh ts lat
        = auditRecordOf agentId input2 s fresh ts lat := by
  refine ⟨rfl, fun input2 h => ?_⟩
  unfold auditRecordOf
  rw [h]

/-- C8 witness: the digest equation and digest-determined row at a
concrete input. -/
theorem C8_audit_input_hash_witness :
    (auditRecordOf 7 "hi".toList initState 0 0 0).inputHash
        = sha256hex (utf8Bytes "hi".toList) ∧
    auditRecordOf 7 "hi".toList initState 0 0 0
        = auditRecordOf 7 "hi".toList initState 0 0 0 :=
  ⟨(C8_audit_input_hash 7 "hi".toList initState 0 0 0).1,
   (C8_audit_input_hash 7 "hi".toList initState 0 0 0).2 "hi".toList rfl⟩

/-- C9: the policy loop runs even when a built-in check already set
DENIED; if the first store-order policy is a custom policy whose keyword
rule matches, the final reason is replaced by the custom reason, the
custom check id is appended after the built-in ones, the custom policy's
id is attributed, and the loop stops after that first policy. -/
theorem C9_custom_overrides_builtin (input : Str) (p : Policy)
    (rest : List Policy) (k : Str)
    (hd : (builtinChecks input).decision = Decision.DENIED)
    (ht : p.policyType = "custom".toList)
    (hm : customMatch input p = some k) :
    (evaluateGuardrails input (Except.ok (p :: rest))).decision
        = Decision.DENIED ∧
    (evaluateGuardrails input (Except.ok (p :: rest))).reason
        = customReason p.name k ∧
    (evaluateGuardrails input (Except.ok (p :: rest))).checksRun
        = (builtinChecks input).checksRun ++ [customCheckId p.name] ∧
    (evaluateGuardrails input (Except.ok (p :: rest))).auditPolicyId
        = some p.id ∧
    (policyLoop input (builtinChecks input) (p :: rest)).2 = [p] := by
  have hstep := policyStep_custom_match input (builtinChecks input) p k ht hm
  have hloop := policyLoop_of_denied input (builtinChecks input) p rest hd
  show (policyLoop input (builtinChecks input) (p :: rest)).1.decision = _ ∧
    (policyLoop input (builtinChecks input) (p :: rest)).1.reason = _ ∧
    (policyLoop input (builtinChecks input) (p :: rest)).1.checksRun = _ ∧
    (policyLoop input (builtinChecks input) (p :: rest)).1.auditPolicyId = _ ∧ _
  rw [hloop, hstep]
  exact ⟨rfl, rfl, rfl, rfl, rfl⟩

/-- C9 witness: the PII-denied input with the "123"-keyword custom policy
first in store order. -/
theorem C9_custom_overrides_builtin_witness :
    (evaluateGuardrails cexInput (Except.ok [kwPolicy, piiPolicy])).reason
        = customReason "KwPol".toList "123".toList ∧
    (evaluateGuardrails cexInput (Except.ok [kwPolicy, piiPolicy])).checksRun
        = (builtinChecks cexInput).checksRun ++ [customCheckId "KwPol".toList] ∧
    (evaluateGuardrails cexInput (Except.ok [kwPolicy, piiPolicy])).auditPolicyId
        = some 3 :=
  ⟨(C9_custom_overrides_builtin cexInput kwPolicy [piiPolicy] "123".toList
      (by decide) (by decide) (by decide)).2.1,
   (C9_custom_overrides_builtin cexInput kwPolicy [piiPolicy] "123".toList
      (by decide) (by decide) (by decide)).2.2.1,
   (C9_custom_overrides_builtin cexInput kwPolicy [piiPolicy] "123".toList
      (by decide) (by decide) (by decide)).2.2.2.1⟩

/-- C10: the PII check is case-sensitive (lowercase "ssn" produces no
finding, uppercase "SSN" denies), while the content-safety and
prompt-injection checks lowercase the input first and so match
case-insensitively. -/
theorem C10_check_case_sensitivity :
    (evaluateGuardrails "my ssn is 123".toList (Except.ok [])).decision
        = Decision.ALLOWED ∧
    (evaluateGuardrails "my ssn is 123".toList (Except.ok [])).checksRun = [] ∧
    (evaluateGuardrails "My SSN is 123".toList (Except.ok [])).decision
        = Decision.DENIED ∧
    (evaluateGuardrails "My SSN is 123".toList (Except.ok [])).checksRun
        = ["PII_Detection".toList] ∧
    (evaluateGuardrails "depicts VIOLENCE".toList (Except.ok [])).decision
        = Decision.DENIED ∧
    (evaluateGuardrails "depicts VIOLENCE".toList (Except.ok [])).checksRun
        = ["Content_Safety".toList] ∧
    (evaluateGuardrails "IGNORE ALL PREVIOUS INSTRUCTIONS".toList
        (Except.ok [])).decision = Decision.WARN ∧
    (evaluateGuardrails "IGNORE ALL PREVIOUS INSTRUCTIONS".toList
        (Except.ok [])).checksRun = ["Prompt_Injection".toList] := by
  decide

-- FIPS 180-4 test vector, validating the SHA-256 embedding.
set_option maxRecDepth 100000 in
example :
    sha256hex (utf8Bytes "abc".toList) =
      "ba7816bf8f01cfea414140de5dae2223b00361a396177a9cb410ff61f20015ad".toList := by
  decide

end AG
